import Mathlib

/-!
Verification of the playback scheduler and viewport logic of `lv`
(an image-sequence viewer, source `src/lv.go`).

The scheduler `playFramer` (lv.go:358-430) is embedded as a step function
on an explicit state; wall-clock instants are modelled as rationals
(`time.Since(start).Seconds()` becomes `now - start`), Go's `float64`
arithmetic on durations as exact rational arithmetic, Go's `int(x)`
float-to-int conversion as truncation toward zero, and Go's integer `%`
as truncated remainder.  The startup checks of `main` (lv.go:66-79), the
zoom/pan viewport state machine of the main event loop (lv.go:107-243)
and the destination-rectangle computation (lv.go:238-243) are embedded
likewise.
-/

namespace LV

/-- Go `int(x)` conversion of a `float64` (here modelled as `ℚ`):
truncation toward zero. -/
def goTrunc (q : ℚ) : ℤ := if 0 ≤ q then q.floor else -((-q).floor)

/-- Go integer remainder `a % b` (truncated remainder, sign of the dividend). -/
def goMod (a b : ℤ) : ℤ := Int.tmod a b

/-- `playMode` (lv.go:31-36). -/
inductive playMode
  | playRealTime
  | playEveryFrame
  deriving DecidableEq

/-- The command alphabet `event` (lv.go:49-60); `unknownEvent` is never sent. -/
inductive event
  | playPauseEvent
  | seekNextEvent
  | seekPrevEvent
  | seekNextFrameEvent
  | seekPrevFrameEvent
  | playRealTimeEvent
  | playEveryFrameEvent
  deriving DecidableEq

/-- The local state of `playFramer` (lv.go:358-361): the mode (a parameter
mutated by mode-switch events), the `playing` flag, the stored frame `f`,
and the anchor instant `start`. -/
structure FramerState where
  mode : playMode
  playing : Bool
  f : ℤ
  start : ℚ
  deriving DecidableEq

/-- `playFramer`'s initial state (lv.go:359-361): `playing := true`,
`start := time.Now()`, `var f int` (zero value). -/
def initFramer (mode : playMode) (t0 : ℚ) : FramerState :=
  { mode := mode, playing := true, f := 0, start := t0 }

/-- The guarded wrap `if x >= seqLen { x %= seqLen }` used at
lv.go:367-369, lv.go:417-419 and lv.go:422-424. -/
def wrapIfGe (seqLen x : ℤ) : ℤ :=
  if seqLen ≤ x then goMod x seqLen else x

/-- `int(time.Since(start).Seconds() * fps)` (lv.go:366, lv.go:416). -/
def elapsedFrames (fps start now : ℚ) : ℤ :=
  goTrunc ((now - start) * fps)

/-- The reconciliation prefix of the command branch (lv.go:365-370):
when `playing`, add the elapsed frames to `f` and wrap if out of range. -/
def reconciled (seqLen : ℤ) (fps : ℚ) (s : FramerState) (now : ℚ) : ℤ :=
  if s.playing then wrapIfGe seqLen (s.f + elapsedFrames fps s.start now) else s.f

/-- The command branch of `playFramer`'s select (lv.go:364-408):
reconciliation, `start = time.Now()`, then the `switch ev`. -/
def handleCommand (seqLen : ℤ) (fps : ℚ) (s : FramerState) (ev : event) (now : ℚ) :
    FramerState :=
  let s := { s with f := reconciled seqLen fps s now, start := now }
  match ev with
  | .playPauseEvent =>
      { s with playing := if s.playing then false else true }
  | .seekPrevEvent =>
      let f := s.f - goTrunc fps
      { s with f := if f < 0 then 0 else f }
  | .seekNextEvent =>
      let f := s.f + goTrunc fps
      { s with f := if seqLen ≤ f then seqLen - 1 else f }
  | .seekPrevFrameEvent =>
      let f : ℤ := s.f - 1
      { s with playing := false, f := if f < 0 then 0 else f }
  | .seekNextFrameEvent =>
      let f : ℤ := s.f + 1
      { s with playing := false, f := if seqLen ≤ f then seqLen - 1 else f }
  | .playRealTimeEvent =>
      { s with mode := .playRealTime }
  | .playEveryFrameEvent =>
      { s with mode := .playEveryFrame }

/-- The emission block after the select (lv.go:414-427): in RealTime mode a
non-mutating projection of the frame at `now`; in EveryFrame mode `f++` with
wrap, `start = time.Now()`.  Returns the updated state and the value sent as
`frameEvent(tf)` (lv.go:428). -/
def emitFrame (seqLen : ℤ) (fps : ℚ) (s : FramerState) (now : ℚ) :
    FramerState × ℤ :=
  if s.mode = .playRealTime then
    (s, wrapIfGe seqLen (s.f + elapsedFrames fps s.start now))
  else
    let f := wrapIfGe seqLen (s.f + 1)
    ({ s with f := f, start := now }, f)

/-- One scheduler input: a command received on `eventCh`, or a firing of the
tick timer `time.After(time.Second / time.Duration(fps))` (lv.go:409), each
tagged with the instant `now` at which `playFramer` processes it. -/
inductive schedInput
  | cmd (ev : event) (now : ℚ)
  | tick (now : ℚ)
  deriving DecidableEq

/-- The instant at which an input is processed. -/
def schedInput.time : schedInput → ℚ
  | .cmd _ t => t
  | .tick t => t

/-- One iteration of `playFramer`'s loop (lv.go:362-429) on one input:
a command runs the command branch and then the emission block; a tick with
`!playing` is `continue` (lv.go:410-412, no emission, no state change);
a tick with `playing` runs the emission block.  The second component lists
the frame indices sent to the window during the iteration. -/
def stepFramer (seqLen : ℤ) (fps : ℚ) (s : FramerState) (i : schedInput) :
    FramerState × List ℤ :=
  match i with
  | .cmd ev now =>
      let s1 := handleCommand seqLen fps s ev now
      let p := emitFrame seqLen fps s1 now
      (p.1, [p.2])
  | .tick now =>
      if s.playing then
        let p := emitFrame seqLen fps s now
        (p.1, [p.2])
      else
        (s, [])

/-- Finitely many loop iterations of `playFramer`, collecting all emitted
frame indices in order. -/
def runFramer (seqLen : ℤ) (fps : ℚ) (s : FramerState) :
    List schedInput → FramerState × List ℤ
  | [] => (s, [])
  | i :: is =>
      let p := stepFramer seqLen fps s i
      let q := runFramer seqLen fps p.1 is
      (q.1, p.2 ++ q.2)

/-- The processing instants of an input trace are nondecreasing, starting
no earlier than a given instant (the monotonic clock of `time.Now` /
`time.Since`). -/
def timesMono : ℚ → List schedInput → Prop
  | _, [] => True
  | t, i :: is => t ≤ i.time ∧ timesMono i.time is

/-- The stored frame is a valid index of the sequence. -/
def FrameInRange (seqLen : ℤ) (s : FramerState) : Prop :=
  0 ≤ s.f ∧ s.f < seqLen

theorem ratFloor_eq_floor (q : ℚ) : q.floor = ⌊q⌋ := by
  rw [Rat.floor_def, Rat.floor_def']

theorem goTrunc_eq_floor {q : ℚ} (h : 0 ≤ q) : goTrunc q = ⌊q⌋ := by
  rw [goTrunc, if_pos h, ratFloor_eq_floor]

theorem goTrunc_eq_ceil {q : ℚ} (h : q < 0) : goTrunc q = ⌈q⌉ := by
  rw [goTrunc, if_neg (not_le.mpr h), ratFloor_eq_floor, Int.floor_neg, neg_neg]

theorem goTrunc_nonneg {q : ℚ} (h : 0 ≤ q) : 0 ≤ goTrunc q := by
  rw [goTrunc_eq_floor h]
  exact Int.floor_nonneg.mpr h

theorem goMod_eq_emod {a b : ℤ} (ha : 0 ≤ a) (hb : 0 ≤ b) : goMod a b = a % b :=
  Int.tmod_eq_emod ha hb

theorem wrapIfGe_eq_emod {n x : ℤ} (hn : 0 < n) (hx : 0 ≤ x) :
    wrapIfGe n x = x % n := by
  unfold wrapIfGe
  by_cases h : n ≤ x
  · rw [if_pos h, goMod_eq_emod (le_trans hn.le h) hn.le]
  · rw [if_neg h, Int.emod_eq_of_lt hx (lt_of_not_le h)]

theorem wrapIfGe_range {n x : ℤ} (hn : 0 < n) (hx : 0 ≤ x) :
    0 ≤ wrapIfGe n x ∧ wrapIfGe n x < n := by
  rw [wrapIfGe_eq_emod hn hx]
  exact ⟨Int.emod_nonneg x hn.ne', Int.emod_lt_of_pos x hn⟩

theorem elapsedFrames_nonneg {fps start now : ℚ} (hst : start ≤ now)
    (hfps : 0 ≤ fps) : 0 ≤ elapsedFrames fps start now :=
  goTrunc_nonneg (mul_nonneg (sub_nonneg.mpr hst) hfps)

theorem elapsedFrames_eq_floor {fps start now : ℚ} (hst : start ≤ now)
    (hfps : 0 ≤ fps) : elapsedFrames fps start now = ⌊(now - start) * fps⌋ :=
  goTrunc_eq_floor (mul_nonneg (sub_nonneg.mpr hst) hfps)

theorem elapsedFrames_self (fps now : ℚ) : elapsedFrames fps now now = 0 := by
  rw [elapsedFrames, sub_self, zero_mul, goTrunc_eq_floor le_rfl, Int.floor_zero]

theorem reconciled_range {seqLen : ℤ} {fps : ℚ} {s : FramerState} {now : ℚ}
    (hn : 0 < seqLen) (hfps : 0 ≤ fps) (hf : FrameInRange seqLen s)
    (hst : s.start ≤ now) :
    0 ≤ reconciled seqLen fps s now ∧ reconciled seqLen fps s now < seqLen := by
  unfold reconciled
  by_cases hp : s.playing = true
  · simp only [hp, if_true]
    exact wrapIfGe_range hn (add_nonneg hf.1 (elapsedFrames_nonneg hst hfps))
  · simp only [hp, if_false]
    exact hf

theorem handleCommand_start (seqLen : ℤ) (fps : ℚ) (s : FramerState) (ev : event)
    (now : ℚ) : (handleCommand seqLen fps s ev now).start = now := by
  cases ev <;> rfl

theorem handleCommand_range (seqLen : ℤ) (fps : ℚ) (s : FramerState) (ev : event)
    (now : ℚ) (hn : 0 < seqLen) (hfps : 0 ≤ fps) (hf : FrameInRange seqLen s)
    (hst : s.start ≤ now) :
    FrameInRange seqLen (handleCommand seqLen fps s ev now) := by
  have hr := reconciled_range hn hfps hf hst
  have ht : 0 ≤ goTrunc fps := goTrunc_nonneg hfps
  cases ev <;> simp only [handleCommand, FrameInRange] <;>
    constructor <;> (try split) <;> omega

theorem emitFrame_inv (seqLen : ℤ) (fps : ℚ) (s : FramerState) (now : ℚ)
    (hn : 0 < seqLen) (hfps : 0 ≤ fps) (hf : FrameInRange seqLen s)
    (hst : s.start ≤ now) :
    FrameInRange seqLen (emitFrame seqLen fps s now).1
    ∧ (emitFrame seqLen fps s now).1.start ≤ now
    ∧ 0 ≤ (emitFrame seqLen fps s now).2 ∧ (emitFrame seqLen fps s now).2 < seqLen := by
  unfold emitFrame
  by_cases hm : s.mode = .playRealTime
  · have h := wrapIfGe_range hn (add_nonneg hf.1 (elapsedFrames_nonneg hst hfps))
    simp only [hm, if_pos]
    exact ⟨hf, hst, h⟩
  · have h := wrapIfGe_range hn (x := s.f + 1) (by have := hf.1; omega)
    rw [if_neg hm]
    exact ⟨h, le_rfl, h⟩

theorem stepFramer_inv {seqLen : ℤ} {fps : ℚ} {s : FramerState} {i : schedInput}
    (hn : 0 < seqLen) (hfps : 0 ≤ fps) (hf : FrameInRange seqLen s)
    (hst : s.start ≤ i.time) :
    FrameInRange seqLen (stepFramer seqLen fps s i).1
    ∧ (stepFramer seqLen fps s i).1.start ≤ i.time
    ∧ ∀ e ∈ (stepFramer seqLen fps s i).2, 0 ≤ e ∧ e < seqLen := by
  cases i with
  | cmd ev now =>
      have hf1 := handleCommand_range seqLen fps s ev now hn hfps hf hst
      have hs1 : (handleCommand seqLen fps s ev now).start = now :=
        handleCommand_start seqLen fps s ev now
      have h := emitFrame_inv seqLen fps _ now hn hfps hf1 (le_of_eq hs1)
      refine ⟨h.1, h.2.1, ?_⟩
      intro e he
      simp only [stepFramer, List.mem_singleton] at he
      subst he
      exact h.2.2
  | tick now =>
      by_cases hp : s.playing = true
      · have h := emitFrame_inv seqLen fps s now hn hfps hf hst
        simp only [stepFramer, hp, if_true]
        refine ⟨h.1, h.2.1, ?_⟩
        intro e he
        simp only [List.mem_singleton] at he
        subst he
        exact h.2.2
      · simp only [stepFramer, hp, if_false]
        exact ⟨hf, hst, by simp⟩

theorem timesMono_anti {t t' : ℚ} {is : List schedInput} (h : t' ≤ t)
    (hm : timesMono t is) : timesMono t' is := by
  cases is with
  | nil => trivial
  | cons i is => exact ⟨le_trans h hm.1, hm.2⟩

theorem runFramer_inv {seqLen : ℤ} {fps : ℚ} (hn : 0 < seqLen) (hfps : 0 ≤ fps) :
    ∀ (is : List schedInput) (s : FramerState), FrameInRange seqLen s →
      timesMono s.start is →
      FrameInRange seqLen (runFramer seqLen fps s is).1
      ∧ ∀ e ∈ (runFramer seqLen fps s is).2, 0 ≤ e ∧ e < seqLen := by
  intro is
  induction is with
  | nil =>
      intro s hf _
      exact ⟨hf, by simp [runFramer]⟩
  | cons i is ih =>
      intro s hf hm
      have h1 := stepFramer_inv (i := i) hn hfps hf hm.1
      have h2 := ih (stepFramer seqLen fps s i).1 h1.1 (timesMono_anti h1.2.1 hm.2)
      constructor
      · simpa only [runFramer] using h2.1
      · intro e he
        simp only [runFramer, List.mem_append] at he
        rcases he with h | h
        · exact h1.2.2 e h
        · exact h2.2 e h

/-- C1: for every `sequenceLength > 0` and `fps > 0`, after any finite
sequence of commands and timer ticks processed (at nondecreasing instants)
by the scheduler started in its initial state, the stored current frame
index is in `[0, sequenceLength)`, and every emitted frame index is in
`[0, sequenceLength)`. -/
theorem currentFrame_always_in_range (seqLen : ℤ) (fps : ℚ) (mode : playMode)
    (t0 : ℚ) (is : List schedInput)
    (hn : 0 < seqLen) (hfps : 0 < fps) (hm : timesMono t0 is) :
    (0 ≤ (runFramer seqLen fps (initFramer mode t0) is).1.f
      ∧ (runFramer seqLen fps (initFramer mode t0) is).1.f < seqLen)
    ∧ ∀ e ∈ (runFramer seqLen fps (initFramer mode t0) is).2,
        0 ≤ e ∧ e < seqLen :=
  runFramer_inv hn hfps.le is (initFramer mode t0) ⟨le_rfl, hn⟩ hm

/-- Concrete instantiation of `currentFrame_always_in_range`: three frames at
24 fps, a step-forward command at instant 0 followed by a tick at instant 1. -/
theorem currentFrame_always_in_range_witness :
    (0 ≤ (runFramer 3 24 (initFramer .playRealTime 0)
            [.cmd .seekNextFrameEvent 0, .tick 1]).1.f
      ∧ (runFramer 3 24 (initFramer .playRealTime 0)
            [.cmd .seekNextFrameEvent 0, .tick 1]).1.f < 3)
    ∧ ∀ e ∈ (runFramer 3 24 (initFramer .playRealTime 0)
            [.cmd .seekNextFrameEvent 0, .tick 1]).2,
        0 ≤ e ∧ e < 3 :=
  currentFrame_always_in_range 3 24 .playRealTime 0
    [.cmd .seekNextFrameEvent 0, .tick 1]
    (by norm_num) (by norm_num) ⟨le_rfl, by norm_num [schedInput.time], trivial⟩

theorem wrapIfGe_of_lt {n x : ℤ} (h : x < n) : wrapIfGe n x = x := by
  rw [wrapIfGe, if_neg (not_le.mpr h)]

theorem emitFrame_eq_realTime {seqLen : ℤ} {fps : ℚ} {s : FramerState} {now : ℚ}
    (h : s.mode = .playRealTime) :
    emitFrame seqLen fps s now
      = (s, wrapIfGe seqLen (s.f + elapsedFrames fps s.start now)) := by
  rw [emitFrame, if_pos h]

theorem emitFrame_eq_everyFrame {seqLen : ℤ} {fps : ℚ} {s : FramerState} {now : ℚ}
    (h : s.mode = .playEveryFrame) :
    emitFrame seqLen fps s now
      = ({ s with f := wrapIfGe seqLen (s.f + 1), start := now },
         wrapIfGe seqLen (s.f + 1)) := by
  rw [emitFrame, if_neg (by rw [h]; intro hc; cases hc)]

/-- After any command the anchor has just been reset, so the RealTime
emission projects zero extra elapsed frames: the value sent is the stored
frame itself (when in range). -/
theorem emitFrame_realTime_at_anchor {seqLen : ℤ} {fps : ℚ} {s : FramerState}
    (h : s.mode = .playRealTime) (hs : s.start = now) (hlt : s.f < seqLen) :
    emitFrame seqLen fps s now = (s, s.f) := by
  rw [emitFrame_eq_realTime h, hs, elapsedFrames_self, add_zero, wrapIfGe_of_lt hlt]

/-- A command iteration in RealTime mode: the state after the iteration is
the state produced by the command branch, and the emission is its frame. -/
theorem stepFramer_cmd_realTime (seqLen : ℤ) (fps : ℚ) (s : FramerState)
    (ev : event) (now : ℚ)
    (hm : (handleCommand seqLen fps s ev now).mode = .playRealTime)
    (hlt : (handleCommand seqLen fps s ev now).f < seqLen) :
    stepFramer seqLen fps s (.cmd ev now)
      = (handleCommand seqLen fps s ev now, [(handleCommand seqLen fps s ev now).f]) := by
  simp only [stepFramer]
  rw [emitFrame_realTime_at_anchor hm (handleCommand_start seqLen fps s ev now) hlt]

/-- A command iteration in EveryFrame mode: the emission block advances the
frame once more after the command branch, with wraparound. -/
theorem stepFramer_cmd_everyFrame (seqLen : ℤ) (fps : ℚ) (s : FramerState)
    (ev : event) (now : ℚ)
    (hm : (handleCommand seqLen fps s ev now).mode = .playEveryFrame) :
    stepFramer seqLen fps s (.cmd ev now)
      = ({ handleCommand seqLen fps s ev now with
            f := wrapIfGe seqLen ((handleCommand seqLen fps s ev now).f + 1),
            start := now },
         [wrapIfGe seqLen ((handleCommand seqLen fps s ev now).f + 1)]) := by
  simp only [stepFramer]
  rw [emitFrame_eq_everyFrame hm]

/-- C2 fails as stated: with `sequenceLength = 10`, mode EveryFrame, paused at
frame 0, a StepForward command stores and emits frame 2, not the single step
to frame 1 the claim requires — the post-command emission block advances the
frame a second time in EveryFrame mode (lv.go:420-427). -/
theorem stepForward_everyFrame_counterexample :
    (stepFramer 10 24 ⟨.playEveryFrame, false, 0, 0⟩
       (.cmd .seekNextFrameEvent 0)).1.f = 2
    ∧ ((2 : ℤ) ≠ 1) := by
  constructor
  · rfl
  · decide

/-- C2 (amended): a StepForward / StepBackward command forces
`playing = false` and moves the reconciled frame by exactly `+1` / `-1`
clamped to `[0, sequenceLength-1]` — but only in RealTime mode; in
EveryFrame mode the post-command emission block (lv.go:420-427) advances
the stored frame once more, with modulo wraparound. -/
theorem stepFrameEvents_pause_and_step (seqLen : ℤ) (fps : ℚ) (s : FramerState)
    (now : ℚ) (hn : 0 < seqLen) (hfps : 0 ≤ fps) (hf : FrameInRange seqLen s)
    (hst : s.start ≤ now) :
    (stepFramer seqLen fps s (.cmd .seekNextFrameEvent now)).1.playing = false
    ∧ (stepFramer seqLen fps s (.cmd .seekPrevFrameEvent now)).1.playing = false
    ∧ (s.mode = .playRealTime →
        (stepFramer seqLen fps s (.cmd .seekNextFrameEvent now)).1.f
          = min (reconciled seqLen fps s now + 1) (seqLen - 1)
        ∧ (stepFramer seqLen fps s (.cmd .seekPrevFrameEvent now)).1.f
          = max (reconciled seqLen fps s now - 1) 0)
    ∧ (s.mode = .playEveryFrame →
        (stepFramer seqLen fps s (.cmd .seekNextFrameEvent now)).1.f
          = (min (reconciled seqLen fps s now + 1) (seqLen - 1) + 1) % seqLen
        ∧ (stepFramer seqLen fps s (.cmd .seekPrevFrameEvent now)).1.f
          = (max (reconciled seqLen fps s now - 1) 0 + 1) % seqLen) := by
  have hr := reconciled_range hn hfps hf hst
  set r := reconciled seqLen fps s now with hrdef
  have hnext : handleCommand seqLen fps s .seekNextFrameEvent now
      = ⟨s.mode, false, if seqLen ≤ r + 1 then seqLen - 1 else r + 1, now⟩ := rfl
  have hprev : handleCommand seqLen fps s .seekPrevFrameEvent now
      = ⟨s.mode, false, if r - 1 < 0 then 0 else r - 1, now⟩ := rfl
  by_cases hm : s.mode = .playRealTime
  · have e1 := stepFramer_cmd_realTime seqLen fps s .seekNextFrameEvent now
       (by rw [hnext]; exact hm) (by rw [hnext]; dsimp only; split <;> omega)
    have e2 := stepFramer_cmd_realTime seqLen fps s .seekPrevFrameEvent now
       (by rw [hprev]; exact hm) (by rw [hprev]; dsimp only; split <;> omega)
    rw [hnext] at e1
    rw [hprev] at e2
    refine ⟨by rw [e1], by rw [e2], fun _ => ⟨?_, ?_⟩,
      fun hm2 => absurd hm2 (by rw [hm]; decide)⟩
    · rw [e1]; dsimp only; split <;> omega
    · rw [e2]; dsimp only; split <;> omega
  · have hm2 : s.mode = .playEveryFrame := by
      cases hmode : s.mode
      · exact absurd hmode hm
      · rfl
    have e1 := stepFramer_cmd_everyFrame seqLen fps s .seekNextFrameEvent now
       (by rw [hnext]; exact hm2)
    have e2 := stepFramer_cmd_everyFrame seqLen fps s .seekPrevFrameEvent now
       (by rw [hprev]; exact hm2)
    rw [hnext] at e1
    rw [hprev] at e2
    dsimp only at e1 e2
    refine ⟨by rw [e1], by rw [e2], fun hm1 => absurd hm1 hm, fun _ => ⟨?_, ?_⟩⟩
    · rw [e1]; dsimp only
      rw [wrapIfGe_eq_emod hn (by split <;> omega)]
      congr 2
      split <;> omega
    · rw [e2]; dsimp only
      rw [wrapIfGe_eq_emod hn (by split <;> omega)]
      congr 2
      split <;> omega

/-- Concrete instantiation of `stepFrameEvents_pause_and_step`: ten frames,
24 fps, RealTime mode, playing at frame 5, command processed at the anchor
instant. -/
theorem stepFrameEvents_pause_and_step_witness :
    (stepFramer 10 24 ⟨.playRealTime, true, 5, 0⟩
        (.cmd .seekNextFrameEvent 0)).1.playing = false
    ∧ (stepFramer 10 24 ⟨.playRealTime, true, 5, 0⟩
        (.cmd .seekPrevFrameEvent 0)).1.playing = false
    ∧ ((⟨.playRealTime, true, 5, 0⟩ : FramerState).mode = .playRealTime →
        (stepFramer 10 24 ⟨.playRealTime, true, 5, 0⟩
            (.cmd .seekNextFrameEvent 0)).1.f
          = min (reconciled 10 24 ⟨.playRealTime, true, 5, 0⟩ 0 + 1) (10 - 1)
        ∧ (stepFramer 10 24 ⟨.playRealTime, true, 5, 0⟩
            (.cmd .seekPrevFrameEvent 0)).1.f
          = max (reconciled 10 24 ⟨.playRealTime, true, 5, 0⟩ 0 - 1) 0)
    ∧ ((⟨.playRealTime, true, 5, 0⟩ : FramerState).mode = .playEveryFrame →
        (stepFramer 10 24 ⟨.playRealTime, true, 5, 0⟩
            (.cmd .seekNextFrameEvent 0)).1.f
          = (min (reconciled 10 24 ⟨.playRealTime, true, 5, 0⟩ 0 + 1) (10 - 1) + 1) % 10
        ∧ (stepFramer 10 24 ⟨.playRealTime, true, 5, 0⟩
            (.cmd .seekPrevFrameEvent 0)).1.f
          = (max (reconciled 10 24 ⟨.playRealTime, true, 5, 0⟩ 0 - 1) 0 + 1) % 10) :=
  stepFrameEvents_pause_and_step 10 24 ⟨.playRealTime, true, 5, 0⟩ 0
    (by norm_num) (by norm_num) ⟨by norm_num, by norm_num⟩ le_rfl

/-- C3 fails as stated: in EveryFrame mode with `playing = true`, the same
PlayPause command processed from the same state stores frame 25 when one
second has elapsed (24 elapsed frames reconciled at lv.go:365-370, plus the
EveryFrame emission step) but frame 1 when no time has elapsed — so receiving
a command does change the current frame via elapsed-time reconciliation even
in EveryFrame mode. -/
theorem everyFrame_command_reconciliation_counterexample :
    (stepFramer 100 24 ⟨.playEveryFrame, true, 0, 0⟩ (.cmd .playPauseEvent 1)).1.f = 25
    ∧ (stepFramer 100 24 ⟨.playEveryFrame, true, 0, 0⟩ (.cmd .playPauseEvent 0)).1.f = 1
    ∧ (25 : ℤ) ≠ 1 := by
  have h24 : elapsedFrames 24 0 1 = 24 := by
    rw [elapsedFrames_eq_floor (by norm_num) (by norm_num)]
    norm_num
  have hrec : reconciled 100 24 (⟨.playEveryFrame, true, 0, 0⟩ : FramerState) 1 = 24 := by
    norm_num [reconciled, wrapIfGe, h24]
  have hrec0 : reconciled 100 24 (⟨.playEveryFrame, true, 0, 0⟩ : FramerState) 0 = 0 := by
    norm_num [reconciled, wrapIfGe, elapsedFrames_self]
  refine ⟨?_, ?_, by decide⟩
  · have e := stepFramer_cmd_everyFrame 100 24
      ⟨.playEveryFrame, true, 0, 0⟩ .playPauseEvent 1 rfl
    rw [e]
    dsimp only
    have hc : (handleCommand 100 24 (⟨.playEveryFrame, true, 0, 0⟩ : FramerState)
        .playPauseEvent 1).f
        = reconciled 100 24 (⟨.playEveryFrame, true, 0, 0⟩ : FramerState) 1 := rfl
    rw [hc, hrec]
    norm_num [wrapIfGe]
  · have e := stepFramer_cmd_everyFrame 100 24
      ⟨.playEveryFrame, true, 0, 0⟩ .playPauseEvent 0 rfl
    rw [e]
    dsimp only
    have hc : (handleCommand 100 24 (⟨.playEveryFrame, true, 0, 0⟩ : FramerState)
        .playPauseEvent 0).f
        = reconciled 100 24 (⟨.playEveryFrame, true, 0, 0⟩ : FramerState) 0 := rfl
    rw [hc, hrec0]
    norm_num [wrapIfGe]

/-- C3 (amended): the reconciliation step is performed before acting on a
command whenever `playing` is true — in both modes, not only RealTime
(lv.go:365 guards on `playing` alone).  Observed on a PlayPause command:
when playing, the stored frame becomes the elapsed-time-reconciled frame
(plus the EveryFrame emission increment in EveryFrame mode); when paused,
no reconciliation happens. -/
theorem reconcile_on_command_iff_playing (seqLen : ℤ) (fps : ℚ) (s : FramerState)
    (now : ℚ) (hn : 0 < seqLen) (hfps : 0 ≤ fps) (hf : FrameInRange seqLen s)
    (hst : s.start ≤ now) :
    (s.playing = true →
       (stepFramer seqLen fps s (.cmd .playPauseEvent now)).1.f
         = (if s.mode = .playEveryFrame
            then ((s.f + ⌊(now - s.start) * fps⌋) % seqLen + 1) % seqLen
            else (s.f + ⌊(now - s.start) * fps⌋) % seqLen))
    ∧ (s.playing = false →
       (stepFramer seqLen fps s (.cmd .playPauseEvent now)).1.f
         = (if s.mode = .playEveryFrame then (s.f + 1) % seqLen else s.f)) := by
  have hr := reconciled_range hn hfps hf hst
  have hrec : reconciled seqLen fps s now
      = if s.playing then (s.f + ⌊(now - s.start) * fps⌋) % seqLen else s.f := by
    rw [reconciled]
    by_cases hp : s.playing = true
    · rw [if_pos hp, if_pos hp,
        wrapIfGe_eq_emod hn (add_nonneg hf.1 (elapsedFrames_nonneg hst hfps)),
        elapsedFrames_eq_floor hst hfps]
    · rw [if_neg hp, if_neg hp]
  have hpp : handleCommand seqLen fps s .playPauseEvent now
      = ⟨s.mode, if s.playing then false else true, reconciled seqLen fps s now, now⟩ := rfl
  by_cases hm : s.mode = .playRealTime
  · have e := stepFramer_cmd_realTime seqLen fps s .playPauseEvent now
      (by rw [hpp]; exact hm) (by rw [hpp]; exact hr.2)
    rw [hpp] at e
    have hmne : ¬s.mode = .playEveryFrame := by rw [hm]; decide
    constructor
    · intro hp
      rw [e]; dsimp only
      rw [if_neg hmne, hrec, if_pos hp]
    · intro hp
      rw [e]; dsimp only
      rw [if_neg hmne, hrec, hp]
      rfl
  · have hm2 : s.mode = .playEveryFrame := by
      cases hmode : s.mode
      · exact absurd hmode hm
      · rfl
    have e := stepFramer_cmd_everyFrame seqLen fps s .playPauseEvent now
      (by rw [hpp]; exact hm2)
    rw [hpp] at e
    dsimp only at e
    constructor
    · intro hp
      rw [e]; dsimp only
      rw [if_pos hm2, wrapIfGe_eq_emod hn (by omega), hrec, if_pos hp]
    · intro hp
      rw [e]; dsimp only
      rw [if_pos hm2, wrapIfGe_eq_emod hn (by omega), hrec, hp]
      rfl

/-- Concrete instantiation of `reconcile_on_command_iff_playing`: ten frames,
24 fps, RealTime mode, playing at frame 2, command processed at the anchor
instant. -/
theorem reconcile_on_command_iff_playing_witness :
    ((⟨.playRealTime, true, 2, 0⟩ : FramerState).playing = true →
       (stepFramer 10 24 ⟨.playRealTime, true, 2, 0⟩ (.cmd .playPauseEvent 0)).1.f
         = (if (⟨.playRealTime, true, 2, 0⟩ : FramerState).mode = .playEveryFrame
            then (((2:ℤ) + ⌊((0:ℚ) - 0) * 24⌋) % 10 + 1) % 10
            else ((2:ℤ) + ⌊((0:ℚ) - 0) * 24⌋) % 10))
    ∧ ((⟨.playRealTime, true, 2, 0⟩ : FramerState).playing = false →
       (stepFramer 10 24 ⟨.playRealTime, true, 2, 0⟩ (.cmd .playPauseEvent 0)).1.f
         = (if (⟨.playRealTime, true, 2, 0⟩ : FramerState).mode = .playEveryFrame
            then ((2:ℤ) + 1) % 10 else 2)) :=
  reconcile_on_command_iff_playing 10 24 ⟨.playRealTime, true, 2, 0⟩ 0
    (by norm_num) (by norm_num) ⟨by norm_num, by norm_num⟩ le_rfl

/-- C4: on a timer tick with `playing = true` and RealTime mode, the scheduler
emits `(currentFrame + floor((now - anchorTime) * fps)) mod sequenceLength` as
a computed projection; the stored state — in particular `currentFrame` and
`anchorTime` — is left completely unchanged by the tick. -/
theorem tick_realTime_emits_projection (seqLen : ℤ) (fps : ℚ) (s : FramerState)
    (now : ℚ) (hm : s.mode = .playRealTime) (hp : s.playing = true)
    (hn : 0 < seqLen) (hfps : 0 ≤ fps) (hf : FrameInRange seqLen s)
    (hst : s.start ≤ now) :
    stepFramer seqLen fps s (.tick now)
      = (s, [(s.f + ⌊(now - s.start) * fps⌋) % seqLen]) := by
  simp only [stepFramer, hp, if_true]
  rw [emitFrame_eq_realTime hm,
    wrapIfGe_eq_emod hn (add_nonneg hf.1 (elapsedFrames_nonneg hst hfps)),
    elapsedFrames_eq_floor hst hfps]

/-- Concrete instantiation of `tick_realTime_emits_projection`: ten frames at
24 fps, playing from frame 0 with anchor 0, tick after half a second: frame
`⌊0.5 * 24⌋ mod 10 = 2` is emitted and the state is untouched. -/
theorem tick_realTime_emits_projection_witness :
    stepFramer 10 24 ⟨.playRealTime, true, 0, 0⟩ (.tick (1/2))
      = (⟨.playRealTime, true, 0, 0⟩, [2]) := by
  rw [tick_realTime_emits_projection 10 24 ⟨.playRealTime, true, 0, 0⟩ (1/2)
    rfl rfl (by norm_num) (by norm_num) ⟨le_rfl, by norm_num⟩ (by norm_num)]
  norm_num

/-- A tick while playing in EveryFrame mode: frame is mutated to
`(f + 1) mod seqLen`, the anchor is reset to `now`, and the new frame is
emitted. -/
theorem stepFramer_tick_everyFrame (seqLen : ℤ) (fps : ℚ) (s : FramerState)
    (now : ℚ) (hm : s.mode = .playEveryFrame) (hp : s.playing = true)
    (hn : 0 < seqLen) (hf0 : 0 ≤ s.f) :
    stepFramer seqLen fps s (.tick now)
      = ({ s with f := (s.f + 1) % seqLen, start := now }, [(s.f + 1) % seqLen]) := by
  simp only [stepFramer, hp, if_true]
  rw [emitFrame_eq_everyFrame hm, wrapIfGe_eq_emod hn (by omega)]
  simp [hp]

theorem runTicks_everyFrame {seqLen : ℤ} {fps : ℚ} (hn : 0 < seqLen) :
    ∀ (times : List ℚ) (s : FramerState), s.mode = .playEveryFrame →
      s.playing = true → FrameInRange seqLen s →
      (runFramer seqLen fps s (times.map .tick)).1.f
        = (s.f + times.length) % seqLen := by
  intro times
  induction times with
  | nil =>
      intro s _ _ hf
      simp only [List.map_nil, runFramer, List.length_nil, Nat.cast_zero, add_zero]
      exact (Int.emod_eq_of_lt hf.1 hf.2).symm
  | cons t ts ih =>
      intro s hm hp hf
      have e := stepFramer_tick_everyFrame seqLen fps s t hm hp hn hf.1
      simp only [List.map_cons, runFramer, e]
      have h2 := ih ({ s with f := (s.f + 1) % seqLen, start := t }) hm hp
        ⟨Int.emod_nonneg _ hn.ne', Int.emod_lt_of_pos _ hn⟩
      rw [h2]
      dsimp only
      rw [Int.emod_add_emod]
      congr 1
      simp only [List.length_cons]
      push_cast
      ring

/-- C5: a timer tick with `playing = true` in EveryFrame mode mutates
`currentFrame` to `(currentFrame + 1) mod sequenceLength`, resets the anchor
to `now`, and emits the new frame; consequently over `N` consecutive ticks
with playing throughout and no commands, the frame advances by exactly `N`
steps modulo the length, regardless of the tick instants. -/
theorem tick_everyFrame_advances (seqLen : ℤ) (fps : ℚ) (s : FramerState)
    (now : ℚ) (hm : s.mode = .playEveryFrame) (hp : s.playing = true)
    (hn : 0 < seqLen) (hf : FrameInRange seqLen s) :
    stepFramer seqLen fps s (.tick now)
      = ({ s with f := (s.f + 1) % seqLen, start := now }, [(s.f + 1) % seqLen])
    ∧ ∀ times : List ℚ,
        (runFramer seqLen fps s (times.map .tick)).1.f
          = (s.f + times.length) % seqLen :=
  ⟨stepFramer_tick_everyFrame seqLen fps s now hm hp hn hf.1,
   fun times => runTicks_everyFrame hn times s hm hp hf⟩

/-- Concrete instantiation of `tick_everyFrame_advances`: three frames,
EveryFrame mode, one tick at instant 5, and a three-tick run at arbitrary
instants 10, 20, 30 advancing the frame by 3 mod 3. -/
theorem tick_everyFrame_advances_witness :
    (stepFramer 3 24 ⟨.playEveryFrame, true, 0, 0⟩ (.tick 5)
      = (⟨.playEveryFrame, true, ((0:ℤ) + 1) % 3, 5⟩, [((0:ℤ) + 1) % 3]))
    ∧ (runFramer 3 24 ⟨.playEveryFrame, true, 0, 0⟩
          (([10, 20, 30] : List ℚ).map .tick)).1.f
        = ((0:ℤ) + ([10, 20, 30] : List ℚ).length) % 3 :=
  ⟨(tick_everyFrame_advances 3 24 ⟨.playEveryFrame, true, 0, 0⟩ 5 rfl rfl
      (by norm_num) ⟨le_rfl, by norm_num⟩).1,
   (tick_everyFrame_advances 3 24 ⟨.playEveryFrame, true, 0, 0⟩ 5 rfl rfl
      (by norm_num) ⟨le_rfl, by norm_num⟩).2 [10, 20, 30]⟩

/-- C6 fails as stated: with `sequenceLength = 100`, EveryFrame mode, paused
at frame 0 and `fps = 24`, a SeekForward command stores frame 25, not 24 —
the post-command emission block advances the frame once more in EveryFrame
mode (lv.go:420-427). -/
theorem seekForward_everyFrame_counterexample :
    (stepFramer 100 24 ⟨.playEveryFrame, false, 0, 0⟩ (.cmd .seekNextEvent 0)).1.f = 25
    ∧ ((25 : ℤ) ≠ 24) := by
  constructor
  · rfl
  · decide

/-- C6 (amended): SeekForward / SeekBackward add or subtract `int(fps)`
frames to the reconciled frame, clamped to `[0, sequenceLength-1]`, and leave
`playing` unchanged; the clamped value is the stored result only in RealTime
mode — in EveryFrame mode the post-command emission block advances the
stored frame once more, with modulo wraparound.  In particular SeekForward
from frame 0 with `fps = 24`, paused, RealTime mode, yields
`min(24, sequenceLength-1)`. -/
theorem seekEvents_jump_one_second (seqLen : ℤ) (fps : ℚ) (s : FramerState)
    (now : ℚ) (hn : 0 < seqLen) (hfps : 0 ≤ fps) (hf : FrameInRange seqLen s)
    (hst : s.start ≤ now) :
    (stepFramer seqLen fps s (.cmd .seekNextEvent now)).1.playing = s.playing
    ∧ (stepFramer seqLen fps s (.cmd .seekPrevEvent now)).1.playing = s.playing
    ∧ (s.mode = .playRealTime →
        (stepFramer seqLen fps s (.cmd .seekNextEvent now)).1.f
          = min (reconciled seqLen fps s now + goTrunc fps) (seqLen - 1)
        ∧ (stepFramer seqLen fps s (.cmd .seekPrevEvent now)).1.f
          = max (reconciled seqLen fps s now - goTrunc fps) 0)
    ∧ (s.mode = .playEveryFrame →
        (stepFramer seqLen fps s (.cmd .seekNextEvent now)).1.f
          = (min (reconciled seqLen fps s now + goTrunc fps) (seqLen - 1) + 1) % seqLen
        ∧ (stepFramer seqLen fps s (.cmd .seekPrevEvent now)).1.f
          = (max (reconciled seqLen fps s now - goTrunc fps) 0 + 1) % seqLen) := by
  have hr := reconciled_range hn hfps hf hst
  have ht : 0 ≤ goTrunc fps := goTrunc_nonneg hfps
  set r := reconciled seqLen fps s now with hrdef
  set t := goTrunc fps with htdef
  have hnext : handleCommand seqLen fps s .seekNextEvent now
      = ⟨s.mode, s.playing, if seqLen ≤ r + t then seqLen - 1 else r + t, now⟩ := rfl
  have hprev : handleCommand seqLen fps s .seekPrevEvent now
      = ⟨s.mode, s.playing, if r - t < 0 then 0 else r - t, now⟩ := rfl
  by_cases hm : s.mode = .playRealTime
  · have e1 := stepFramer_cmd_realTime seqLen fps s .seekNextEvent now
       (by rw [hnext]; exact hm) (by rw [hnext]; dsimp only; split <;> omega)
    have e2 := stepFramer_cmd_realTime seqLen fps s .seekPrevEvent now
       (by rw [hprev]; exact hm) (by rw [hprev]; dsimp only; split <;> omega)
    rw [hnext] at e1
    rw [hprev] at e2
    refine ⟨by rw [e1], by rw [e2], fun _ => ⟨?_, ?_⟩,
      fun hm2 => absurd hm2 (by rw [hm]; decide)⟩
    · rw [e1]; dsimp only; split <;> omega
    · rw [e2]; dsimp only; split <;> omega
  · have hm2 : s.mode = .playEveryFrame := by
      cases hmode : s.mode
      · exact absurd hmode hm
      · rfl
    have e1 := stepFramer_cmd_everyFrame seqLen fps s .seekNextEvent now
       (by rw [hnext]; exact hm2)
    have e2 := stepFramer_cmd_everyFrame seqLen fps s .seekPrevEvent now
       (by rw [hprev]; exact hm2)
    rw [hnext] at e1
    rw [hprev] at e2
    dsimp only at e1 e2
    refine ⟨by rw [e1], by rw [e2], fun hm1 => absurd hm1 hm, fun _ => ⟨?_, ?_⟩⟩
    · rw [e1]; dsimp only
      rw [wrapIfGe_eq_emod hn (by split <;> omega)]
      congr 2
      split <;> omega
    · rw [e2]; dsimp only
      rw [wrapIfGe_eq_emod hn (by split <;> omega)]
      congr 2
      split <;> omega

/-- Concrete instantiation of `seekEvents_jump_one_second`: the claim's own
example — 100 frames, `fps = 24`, RealTime mode, paused at frame 0, command
at the anchor instant. -/
theorem seekEvents_jump_one_second_witness :
    (stepFramer 100 24 ⟨.playRealTime, false, 0, 0⟩ (.cmd .seekNextEvent 0)).1.playing
      = (⟨.playRealTime, false, 0, 0⟩ : FramerState).playing
    ∧ (stepFramer 100 24 ⟨.playRealTime, false, 0, 0⟩ (.cmd .seekPrevEvent 0)).1.playing
      = (⟨.playRealTime, false, 0, 0⟩ : FramerState).playing
    ∧ ((⟨.playRealTime, false, 0, 0⟩ : FramerState).mode = .playRealTime →
        (stepFramer 100 24 ⟨.playRealTime, false, 0, 0⟩ (.cmd .seekNextEvent 0)).1.f
          = min (reconciled 100 24 ⟨.playRealTime, false, 0, 0⟩ 0 + goTrunc 24) (100 - 1)
        ∧ (stepFramer 100 24 ⟨.playRealTime, false, 0, 0⟩ (.cmd .seekPrevEvent 0)).1.f
          = max (reconciled 100 24 ⟨.playRealTime, false, 0, 0⟩ 0 - goTrunc 24) 0)
    ∧ ((⟨.playRealTime, false, 0, 0⟩ : FramerState).mode = .playEveryFrame →
        (stepFramer 100 24 ⟨.playRealTime, false, 0, 0⟩ (.cmd .seekNextEvent 0)).1.f
          = (min (reconciled 100 24 ⟨.playRealTime, false, 0, 0⟩ 0 + goTrunc 24) (100 - 1) + 1) % 100
        ∧ (stepFramer 100 24 ⟨.playRealTime, false, 0, 0⟩ (.cmd .seekPrevEvent 0)).1.f
          = (max (reconciled 100 24 ⟨.playRealTime, false, 0, 0⟩ 0 - goTrunc 24) 0 + 1) % 100) :=
  seekEvents_jump_one_second 100 24 ⟨.playRealTime, false, 0, 0⟩ 0
    (by norm_num) (by norm_num) ⟨le_rfl, by norm_num⟩ le_rfl

/-- The two possible outcomes of `main`'s startup (lv.go:66-79): a usage
message on standard error followed by `os.Exit(1)`, or the scheduler started
with the given fps and sequence length (lv.go:105). -/
inductive startupResult
  | usageExit
  | runScheduler (fps : ℚ) (seqLen : ℕ)
  deriving DecidableEq

/-- `main`'s startup checks (lv.go:66-79): the `-fps` flag value is taken as
parsed (default 24, lv.go:68) with no validation; if there are no positional
arguments the usage message is printed and the process exits with status 1
(lv.go:73-79); otherwise `playFramer` is started with the given fps and
`len(seq)` (lv.go:105). -/
def mainStartup (fps : ℚ) (args : List String) : startupResult :=
  if args.length = 0 then .usageExit else .runScheduler fps args.length

/-- The scheduler's tick period `time.Second / time.Duration(fps)`
(lv.go:409): `time.Duration(fps)` truncates the float64 to an int64
nanosecond count; dividing `time.Second` (10^9 ns) by zero is a runtime
panic, modelled as `none`. -/
def tickPeriodNanos (fps : ℚ) : Option ℤ :=
  if goTrunc fps = 0 then none else some (Int.tdiv 1000000000 (goTrunc fps))

/-- C7 fails as stated: the configuration `fps = -1 ≤ 0` with a non-empty
sequence passes the startup checks unrejected and reaches the scheduler —
`main` never validates fps. -/
theorem negative_fps_reaches_scheduler_counterexample :
    mainStartup (-1) ["img.png"] = .runScheduler (-1) 1 ∧ ((-1 : ℚ) ≤ 0) := by
  constructor
  · rfl
  · norm_num

/-- C7 (amended): an empty input sequence is rejected at startup with a usage
message and a non-zero exit before the scheduler starts, but fps is never
validated: any fps value (in particular any `fps ≤ 0`) reaches the scheduler
when a sequence is given, where the tick-period computation
`time.Second / time.Duration(fps)` divides by the truncated fps — a division
by zero (runtime panic) whenever `-1 < fps < 1`. -/
theorem startup_checks (fps : ℚ) (args : List String) :
    (args = [] → mainStartup fps args = .usageExit)
    ∧ (args ≠ [] → mainStartup fps args = .runScheduler fps args.length)
    ∧ (-1 < fps → fps < 1 → tickPeriodNanos fps = none) := by
  refine ⟨fun h => by subst h; rfl, fun h => ?_, fun h1 h2 => ?_⟩
  · rw [mainStartup, if_neg (by simpa using h)]
  · have hz : goTrunc fps = 0 := by
      by_cases hq : 0 ≤ fps
      · rw [goTrunc_eq_floor hq]
        exact Int.floor_eq_zero_iff.mpr ⟨hq, h2⟩
      · rw [goTrunc_eq_ceil (lt_of_not_le hq)]
        exact Int.ceil_eq_zero_iff.mpr ⟨h1, le_of_not_le hq⟩
    rw [tickPeriodNanos, if_pos hz]

/-- Concrete instantiation of `startup_checks`: no arguments exits with the
usage message for any fps; one argument starts the scheduler even with
`fps = -1`; `fps = 0` reaches a division by zero in the tick period. -/
theorem startup_checks_witness :
    mainStartup 0 [] = .usageExit
    ∧ mainStartup (-1) ["img.png"] = .runScheduler (-1) (["img.png"] : List String).length
    ∧ tickPeriodNanos 0 = none :=
  ⟨(startup_checks 0 []).1 rfl,
   (startup_checks (-1) ["img.png"]).2.1 (by decide),
   (startup_checks 0 ["img.png"]).2.2 (by norm_num) (by norm_num)⟩

/-- C9: every command iteration sends exactly one frame notification to the
window, whatever the state (in particular even when paused); a tick sends
one notification when playing and none when paused — ticks while paused are
the only inputs that produce no notification. -/
theorem one_notification_per_command (seqLen : ℤ) (fps : ℚ) (s : FramerState)
    (ev : event) (now now2 : ℚ) :
    (stepFramer seqLen fps s (.cmd ev now)).2.length = 1
    ∧ (stepFramer seqLen fps s (.tick now2)).2.length
        = (if s.playing then 1 else 0) := by
  constructor
  · simp [stepFramer]
  · by_cases hp : s.playing = true
    · simp [stepFramer, hp]
    · simp only [Bool.not_eq_true] at hp
      simp [stepFramer, hp]

/-- Modelled from the spec: the helper `fit` is called at lv.go:205 but its
definition is not in the repository source; per §4.2 of the spec it maps
`dx` through a fixed monotonic piecewise-linear curve from domain
`[a, b] = [-100, +300]` to range `[c, d] = [0, 4]`, values outside the
domain clamping to the range endpoints. -/
def fit (x a b c d : ℚ) : ℚ :=
  if x ≤ a then c
  else if b ≤ x then d
  else c + (x - a) * (d - c) / (b - a)

/-- The viewport-related mutable locals of `main`'s event loop
(lv.go:101-128): window scale, box transform, and the zoom/pan gesture
state with its anchors. -/
structure Viewport where
  winScale : ℚ
  boxScale : ℚ
  boxOffX : ℚ
  boxOffY : ℚ
  zooming : Bool
  zoomCenterX : ℚ
  lastBoxScale : ℚ
  panning : Bool
  panCenterX : ℚ
  panCenterY : ℚ
  lastBoxOffX : ℚ
  lastBoxOffY : ℚ
  deriving DecidableEq

/-- Initial values of the viewport locals (lv.go:101-128): scales start at 1,
everything else at the zero value. -/
def initViewport : Viewport :=
  { winScale := 1, boxScale := 1, boxOffX := 0, boxOffY := 0,
    zooming := false, zoomCenterX := 0, lastBoxScale := 1,
    panning := false, panCenterX := 0, panCenterY := 0,
    lastBoxOffX := 0, lastBoxOffY := 0 }

/-- The input events that touch the viewport state: right-button press /
release (zoom gesture, lv.go:180-190), middle-button press / release (pan
gesture, lv.go:191-201), mouse motion (lv.go:202-218), the 'f' fit key
(lv.go:172-176), and window resize (lv.go:221-228). -/
inductive vpEvent
  | zoomPress (x : ℚ)
  | zoomRelease
  | panPress (x y : ℚ)
  | panRelease
  | mouseMove (x y : ℚ)
  | fitKey
  | sizeEvent (w h : ℤ)
  deriving DecidableEq

/-- One viewport transition of `main`'s event loop, from the handlers listed
in `vpEvent`; `initWidth`/`initHeight` are the first image's dimensions
(lv.go:89-91). -/
def vpStep (initWidth initHeight : ℚ) (s : Viewport) (e : vpEvent) : Viewport :=
  match e with
  | .zoomPress x =>
      { s with zooming := true, panning := false, zoomCenterX := x,
               lastBoxScale := s.boxScale,
               lastBoxOffX := s.boxOffX, lastBoxOffY := s.boxOffY }
  | .zoomRelease => { s with zooming := false }
  | .panPress x y =>
      { s with panning := true, zooming := false,
               panCenterX := x, panCenterY := y,
               lastBoxOffX := s.boxOffX, lastBoxOffY := s.boxOffY }
  | .panRelease => { s with panning := false }
  | .mouseMove x y =>
      if s.zooming then
        let dx := x - s.zoomCenterX
        let z := fit dx (-100) 300 0 4
        let z := if s.lastBoxScale * z < 0.1 then 0.1 / s.lastBoxScale else z
        { s with boxOffX := s.lastBoxOffX * z, boxOffY := s.lastBoxOffY * z,
                 boxScale := s.lastBoxScale * z }
      else if s.panning then
        let dx := x - s.panCenterX
        let dy := y - s.panCenterY
        { s with boxOffX := s.lastBoxOffX + dx / initWidth / s.winScale,
                 boxOffY := s.lastBoxOffY + dy / initHeight / s.winScale }
      else s
  | .fitKey => { s with boxScale := 1, boxOffX := 0, boxOffY := 0 }
  | .sizeEvent w h =>
      let ws := (w : ℚ) / initWidth
      let hs := (h : ℚ) / initHeight
      { s with winScale := if hs < ws then hs else ws }

/-- The viewport state after a list of events, from the initial state. -/
def runViewport (initWidth initHeight : ℚ) (es : List vpEvent) : Viewport :=
  es.foldl (vpStep initWidth initHeight) initViewport

/-- Both the live scale and the zoom-gesture anchor scale respect the 0.1
floor. -/
def VPScaleInv (s : Viewport) : Prop :=
  (0.1 : ℚ) ≤ s.boxScale ∧ (0.1 : ℚ) ≤ s.lastBoxScale

theorem vpStep_scaleInv (initWidth initHeight : ℚ) {s : Viewport} {e : vpEvent}
    (h : VPScaleInv s) : VPScaleInv (vpStep initWidth initHeight s e) := by
  obtain ⟨h1, h2⟩ := h
  cases e with
  | zoomPress x => exact ⟨h1, h1⟩
  | zoomRelease => exact ⟨h1, h2⟩
  | panPress x y => exact ⟨h1, h2⟩
  | panRelease => exact ⟨h1, h2⟩
  | fitKey => exact ⟨by simp only [vpStep]; norm_num, h2⟩
  | sizeEvent w h => exact ⟨h1, h2⟩
  | mouseMove x y =>
      rw [vpStep]
      by_cases hz : s.zooming = true
      · rw [if_pos hz]
        constructor
        · show (0.1:ℚ) ≤ s.lastBoxScale *
            (if s.lastBoxScale * fit (x - s.zoomCenterX) (-100) 300 0 4 < 0.1
             then 0.1 / s.lastBoxScale else fit (x - s.zoomCenterX) (-100) 300 0 4)
          split
          · have hne : s.lastBoxScale ≠ 0 := by positivity
            rw [mul_div_cancel₀ _ hne]
          · exact le_of_not_lt (by assumption)
        · exact h2
      · rw [if_neg hz]
        split
        · exact ⟨h1, h2⟩
        · exact ⟨h1, h2⟩

theorem runViewport_scaleInv (initWidth initHeight : ℚ) (es : List vpEvent) :
    VPScaleInv (runViewport initWidth initHeight es) := by
  rw [runViewport]
  have init : VPScaleInv initViewport :=
    ⟨by norm_num [initViewport], by norm_num [initViewport]⟩
  generalize initViewport = s at init ⊢
  induction es generalizing s with
  | nil => exact init
  | cons e es ih => exact ih _ (vpStep_scaleInv initWidth initHeight init)

/-- C8: after any sequence of viewport events from the initial state the
scale never drops below 0.1; and on a zoom update whose raw multiplier would
take the anchored scale below 0.1, the multiplier is rescaled to
`0.1 / anchorScale` so the resulting scale is exactly 0.1, while the new
offsets keep the anchor state's offset-to-scale proportion. -/
theorem viewport_scale_floor (initWidth initHeight : ℚ) (es : List vpEvent)
    (s : Viewport) (x y : ℚ) (hz : s.zooming = true)
    (hl : (0.1 : ℚ) ≤ s.lastBoxScale)
    (hlow : s.lastBoxScale * fit (x - s.zoomCenterX) (-100) 300 0 4 < 0.1) :
    (0.1 : ℚ) ≤ (runViewport initWidth initHeight es).boxScale
    ∧ (vpStep initWidth initHeight s (.mouseMove x y)).boxScale = 0.1
    ∧ (vpStep initWidth initHeight s (.mouseMove x y)).boxOffX * s.lastBoxScale
        = s.lastBoxOffX * (vpStep initWidth initHeight s (.mouseMove x y)).boxScale
    ∧ (vpStep initWidth initHeight s (.mouseMove x y)).boxOffY * s.lastBoxScale
        = s.lastBoxOffY * (vpStep initWidth initHeight s (.mouseMove x y)).boxScale := by
  have hne : s.lastBoxScale ≠ 0 := by positivity
  have hstep : vpStep initWidth initHeight s (.mouseMove x y)
      = { s with boxOffX := s.lastBoxOffX * (0.1 / s.lastBoxScale),
                 boxOffY := s.lastBoxOffY * (0.1 / s.lastBoxScale),
                 boxScale := s.lastBoxScale * (0.1 / s.lastBoxScale) } := by
    rw [vpStep, if_pos hz]
    dsimp only
    rw [if_pos hlow]
  refine ⟨(runViewport_scaleInv initWidth initHeight es).1, ?_, ?_, ?_⟩
  · rw [hstep]
    dsimp only
    rw [mul_div_cancel₀ _ hne]
  · rw [hstep]
    dsimp only
    ring
  · rw [hstep]
    dsimp only
    ring

/-- Concrete instantiation of `viewport_scale_floor`: a zoom press at
pointer x = 0 followed by a drag far to the left (x = -200, multiplier 0)
from the initial state; the scale lands exactly on the 0.1 floor. -/
theorem viewport_scale_floor_witness :
    (0.1 : ℚ) ≤ (runViewport 640 480 [.zoomPress 0, .mouseMove (-200) 0]).boxScale
    ∧ (vpStep 640 480 { initViewport with zooming := true }
        (.mouseMove (-200) 0)).boxScale = 0.1
    ∧ (vpStep 640 480 { initViewport with zooming := true }
        (.mouseMove (-200) 0)).boxOffX
          * ({ initViewport with zooming := true } : Viewport).lastBoxScale
        = ({ initViewport with zooming := true } : Viewport).lastBoxOffX
          * (vpStep 640 480 { initViewport with zooming := true }
              (.mouseMove (-200) 0)).boxScale
    ∧ (vpStep 640 480 { initViewport with zooming := true }
        (.mouseMove (-200) 0)).boxOffY
          * ({ initViewport with zooming := true } : Viewport).lastBoxScale
        = ({ initViewport with zooming := true } : Viewport).lastBoxOffY
          * (vpStep 640 480 { initViewport with zooming := true }
              (.mouseMove (-200) 0)).boxScale :=
  viewport_scale_floor 640 480 [.zoomPress 0, .mouseMove (-200) 0]
    { initViewport with zooming := true } (-200) 0 rfl (by norm_num [initViewport])
    (by norm_num [initViewport, fit])

/-- Go `image.Rect` (lv.go:238): a rectangle given by two corners, with the
coordinates swapped per axis if needed so that min ≤ max. -/
structure GoRect where
  minX : ℤ
  minY : ℤ
  maxX : ℤ
  maxY : ℤ
  deriving DecidableEq

def imageRect (x0 y0 x1 y1 : ℤ) : GoRect :=
  { minX := if x0 ≤ x1 then x0 else x1,
    minY := if y0 ≤ y1 then y0 else y1,
    maxX := if x0 ≤ x1 then x1 else x0,
    maxY := if y0 ≤ y1 then y1 else y0 }

/-- The window fit factor recomputed on a size event (lv.go:221-228):
`min(width/initWidth, height/initHeight)` where `initWidth`/`initHeight`
are the dimensions of the FIRST image of the sequence (`dims 0`,
lv.go:85-91), written as the source's `if hs < ws` selection. -/
def winScaleOf (dims : ℕ → ℤ × ℤ) (widthPx heightPx : ℤ) : ℚ :=
  let ws := (widthPx : ℚ) / ((dims 0).1 : ℚ)
  let hs := (heightPx : ℚ) / ((dims 0).2 : ℚ)
  if hs < ws then hs else ws

/-- The destination rectangle `imageRect` recomputed after every event
(lv.go:238-243) and used to draw frame `drawFrame` (lv.go:262): it is built
from the box transform, the window scale and the FIRST image's dimensions
(`dims 0`); the index of the frame being drawn plays no role. -/
def renderRect (dims : ℕ → ℤ × ℤ) (winScale boxScale boxOffX boxOffY : ℚ)
    (drawFrame : ℕ) : GoRect :=
  let initWidth : ℚ := ((dims 0).1 : ℚ)
  let initHeight : ℚ := ((dims 0).2 : ℚ)
  imageRect
    (goTrunc ((0.5 + boxOffX - boxScale * 0.5) * initWidth * winScale))
    (goTrunc ((0.5 + boxOffY - boxScale * 0.5) * initHeight * winScale))
    (goTrunc ((0.5 + boxOffX + boxScale * 0.5) * initWidth * winScale))
    (goTrunc ((0.5 + boxOffY + boxScale * 0.5) * initHeight * winScale))

/-- C10: the window fit factor and the destination rectangle depend only on
the first image's dimensions (plus window size and viewport state): for two
sequences agreeing on the first image, and any two frame indices, both
computations coincide. -/
theorem render_depends_only_on_first_image (dims dims' : ℕ → ℤ × ℤ)
    (widthPx heightPx : ℤ) (winScale boxScale boxOffX boxOffY : ℚ) (i j : ℕ)
    (h0 : dims 0 = dims' 0) :
    winScaleOf dims widthPx heightPx = winScaleOf dims' widthPx heightPx
    ∧ renderRect dims winScale boxScale boxOffX boxOffY i
        = renderRect dims' winScale boxScale boxOffX boxOffY j := by
  constructor
  · simp only [winScaleOf, h0]
  · simp only [renderRect, h0]

/-- Concrete instantiation of `render_depends_only_on_first_image`: a
sequence whose later frames have different dimensions gives the same fit
factor and rectangle as a constant-size sequence, for frames 3 and 7. -/
theorem render_depends_only_on_first_image_witness :
    winScaleOf (fun n => if n = 0 then (640, 480) else (1920, 1080)) 800 600
      = winScaleOf (fun _ => (640, 480)) 800 600
    ∧ renderRect (fun n => if n = 0 then (640, 480) else (1920, 1080)) 1 1 0 0 3
      = renderRect (fun _ => (640, 480)) 1 1 0 0 7 :=
  render_depends_only_on_first_image
    (fun n => if n = 0 then (640, 480) else (1920, 1080)) (fun _ => (640, 480))
    800 600 1 1 0 0 3 7 rfl

end LV
